import Mathlib

/-!
Verification of the combustion-engine component equation set of
tespy/components/combustion/combustion_engine.py against its
natural-language specification.

Modelling conventions: all numeric values are rationals.  The
fluid-property oracle (h_mix_pT), the four characteristic lines and the
finite-difference utilities of the Component/CombustionChamber base
classes are collaborators that are not part of the source file; they are
carried as function-valued fields of the component state, and the value
returned by a base-class residual function at the current state is carried
as a plain field.  Python exceptions (ValueError, ZeroDivisionError) are
modelled by Option with none for the raising branch.
-/

namespace Tespy

/-- Per-port connection state: mass flow, pressure, specific enthalpy and
the mass-fraction vector over the F network fluids. -/
structure Conn (F : ℕ) where
  m : ℚ
  p : ℚ
  h : ℚ
  fluid : Fin F → ℚ

/-- State of a CombustionEngine component over a network with F fluids:
the seven port connections (inl 0..3, outl 0..2), the parameter values and
flags used by the equation set, the fuel data, and the collaborator
functions (fluid-property oracle, characteristic lines, base-class
residual values, finite-difference oracles). -/
structure Engine (F : ℕ) where
  inl : Fin 4 → Conn F
  outl : Fin 3 → Conn F
  P : ℚ
  Qloss : ℚ
  /-- Recorded design value of P; none models np.isnan(self.P.design). -/
  Pdesign : Option ℚ
  P_is_var : Bool
  P_var_pos : ℕ
  Qloss_is_var : Bool
  Qloss_var_pos : ℕ
  Q1 : ℚ
  Q2 : ℚ
  pr1 : ℚ
  pr2 : ℚ
  lamb_set : Bool
  ti_set : Bool
  Q1_set : Bool
  Q2_set : Bool
  pr1_set : Bool
  pr2_set : Bool
  zeta1_set : Bool
  zeta2_set : Bool
  /-- Indices (into the network fluid vector) of the fuels present. -/
  fuel_list : List (Fin F)
  /-- Lower heating value of each fluid (used for fuels only). -/
  LHV : Fin F → ℚ
  /-- Carbon atom count of each fuel molecule (self.fuels[f]['C']). -/
  fuelC : Fin F → ℚ
  /-- Hydrogen atom count of each fuel molecule (self.fuels[f]['H']). -/
  fuelH : Fin F → ℚ
  /-- Molar masses of the fluids (tespy.tools.global_vars.molar_masses). -/
  molar_mass : Fin F → ℚ
  co2 : Fin F
  o2 : Fin F
  h2o : Fin F
  n2 : Fin F
  /-- Collaborator fluid-property oracle h_mix_pT(pressure, temperature,
  composition, force_gas); components only read its scalar result. -/
  hMixPT : ℚ → ℚ → (Fin F → ℚ) → Bool → ℚ
  /-- Characteristic line self.tiP_char.func.evaluate. -/
  tiP_char : ℚ → ℚ
  /-- Characteristic line self.Q1_char.func.evaluate. -/
  Q1_char : ℚ → ℚ
  /-- Characteristic line self.Q2_char.func.evaluate. -/
  Q2_char : ℚ → ℚ
  /-- Characteristic line self.Qloss_char.func.evaluate. -/
  Qloss_char : ℚ → ℚ
  /-- Current value of the base-class reaction balance residual
  (CombustionChamber.reaction_balance) for each fluid. -/
  reaction_balance_val : Fin F → ℚ
  /-- Current value of CombustionChamber.lambda_func. -/
  lambda_func_val : ℚ
  /-- Current value of CombustionChamber.ti_func. -/
  ti_func_val : ℚ
  /-- Current value of Component.zeta_func for cooling loop 1. -/
  zeta_func_val1 : ℚ
  /-- Current value of Component.zeta_func for cooling loop 2. -/
  zeta_func_val2 : ℚ
  /-- Modelled from the spec: the finite-difference utility
  Component.numeric_deriv(func, dx, position) for scalar columns; the
  first argument names the residual function being differentiated. -/
  nd : String → String → ℕ → ℚ
  /-- Modelled from the spec: Component.numeric_deriv(func, fluid, pos),
  one value per composition column index. -/
  nd_fluid : String → ℕ → ℕ → ℚ
  /-- Modelled from the spec: CombustionChamber.rb_numeric_deriv(m, pos,
  fluid), the finite-difference derivative of the reaction balance. -/
  rbnd_m : ℕ → Fin F → ℚ
  /-- Modelled from the spec: CombustionChamber.rb_numeric_deriv(fluid,
  pos, fluid), one value per composition column index. -/
  rbnd_fluid : ℕ → Fin F → ℕ → ℚ
  /-- Modelled from the spec: numeric_deriv of calc_bus_value for a bus
  request (bus parameter name, dx, position). -/
  ndBus : String → String → ℕ → ℚ
  /-- Modelled from the spec: numeric_deriv of calc_bus_value over the
  composition columns (bus parameter name, position, column). -/
  ndBus_fluid : String → ℕ → ℕ → ℚ
  /-- Iteration counter self.it of the enclosing Newton loop. -/
  it : ℕ
  always_all_equations : Bool
  /-- Global tolerance tespy.tools.global_vars.err. -/
  err : ℚ

/-- CombustionEngine.calc_ti: lower-heating-value-weighted net fuel mass
flow over the combustion ports in3, in4 (inl 2, inl 3) and out3 (outl 2). -/
def calc_ti {F : ℕ} (e : Engine F) : ℚ :=
  (e.fuel_list.map (fun f =>
    ((e.inl 2).m * (e.inl 2).fluid f + (e.inl 3).m * (e.inl 3).fluid f
      - (e.outl 2).m * (e.outl 2).fluid f) * e.LHV f)).sum

/-- CombustionEngine.energy_balance: combustion-side enthalpy terms
against the reference state (T = 298.15 K, p = 1e5 Pa, forced gas phase),
plus thermal input, minus the cooling-loop enthalpy rises, plus power and
heat loss. -/
def energy_balance {F : ℕ} (e : Engine F) : ℚ :=
  (e.inl 2).m * ((e.inl 2).h - e.hMixPT 1e5 298.15 ((e.inl 2).fluid) true)
    + (e.inl 3).m * ((e.inl 3).h - e.hMixPT 1e5 298.15 ((e.inl 3).fluid) true)
    - (e.outl 2).m * ((e.outl 2).h - e.hMixPT 1e5 298.15 ((e.outl 2).fluid) true)
    + calc_ti e
    - (e.inl 0).m * ((e.outl 0).h - (e.inl 0).h)
    - (e.inl 1).m * ((e.outl 1).h - (e.inl 1).h)
    + e.P + e.Qloss

/-- The repeated load-expression snippet of the characteristic functions:
expr = 1 if np.isnan(self.P.design) else self.P.val / self.P.design. -/
def Pexpr {F : ℕ} (e : Engine F) : ℚ :=
  match e.Pdesign with
  | none => 1
  | some d => e.P / d

/-- CombustionEngine.tiP_char_func. -/
def tiP_char_func {F : ℕ} (e : Engine F) : ℚ :=
  calc_ti e + e.tiP_char (Pexpr e) * e.P

/-- CombustionEngine.Q1_char_func. -/
def Q1_char_func {F : ℕ} (e : Engine F) : ℚ :=
  calc_ti e * e.Q1_char (Pexpr e)
    - e.tiP_char (Pexpr e) * ((e.inl 0).m * ((e.outl 0).h - (e.inl 0).h))

/-- CombustionEngine.Q2_char_func. -/
def Q2_char_func {F : ℕ} (e : Engine F) : ℚ :=
  calc_ti e * e.Q2_char (Pexpr e)
    - e.tiP_char (Pexpr e) * ((e.inl 1).m * ((e.outl 1).h - (e.inl 1).h))

/-- CombustionEngine.Qloss_char_func. -/
def Qloss_char_func {F : ℕ} (e : Engine F) : ℚ :=
  calc_ti e * e.Qloss_char (Pexpr e) + e.tiP_char (Pexpr e) * e.Qloss

/-- CombustionEngine.calc_P. -/
def calc_P {F : ℕ} (e : Engine F) : ℚ :=
  -calc_ti e / e.tiP_char (Pexpr e)

/-- CombustionEngine.calc_Qloss. -/
def calc_Qloss {F : ℕ} (e : Engine F) : ℚ :=
  -calc_ti e * e.Qloss_char (Pexpr e) / e.tiP_char (Pexpr e)

/-- CombustionEngine.fluid_func: cooling-loop species equality residuals,
loop 1 rows first, then loop 2. -/
def fluid_func {F : ℕ} (e : Engine F) : List ℚ :=
  ((List.finRange F).map (fun f => (e.inl 0).fluid f - (e.outl 0).fluid f))
    ++ ((List.finRange F).map (fun f => (e.inl 1).fluid f - (e.outl 1).fluid f))

/-- CombustionEngine.mass_flow_func, read with exact rational arithmetic
(the idealised residuals; the program itself computes IEEE-754 doubles,
see mass_flow_func_f64 below for the float-faithful version). -/
def mass_flow_func {F : ℕ} (e : Engine F) : List ℚ :=
  [(e.inl 0).m - (e.outl 0).m,
   (e.inl 1).m - (e.outl 1).m,
   (e.inl 2).m + (e.inl 3).m - (e.outl 2).m]

/-- Round a rational to the nearest integer, ties to the even integer
(the IEEE-754 default rounding direction). -/
def roundTiesEven (q : ℚ) : ℤ :=
  if q - ⌊q⌋ < 1 / 2 then ⌊q⌋
  else if 1 / 2 < q - ⌊q⌋ then ⌊q⌋ + 1
  else if ⌊q⌋ % 2 = 0 then ⌊q⌋ else ⌊q⌋ + 1

/-- Round a positive rational to the IEEE-754 binary64 grid: 53
significant bits at the binade of the input, round to nearest, ties to
even.  Overflow and subnormals cannot occur at the magnitudes involved
here and are not modelled. -/
def roundB64pos (q : ℚ) : ℚ :=
  (roundTiesEven (q / (2 : ℚ) ^ (Int.log 2 q - 52)) : ℚ)
    * (2 : ℚ) ^ (Int.log 2 q - 52)

/-- IEEE-754 binary64 rounding of an exact rational value. -/
def roundB64 (q : ℚ) : ℚ :=
  if q = 0 then 0
  else if 0 < q then roundB64pos q
  else -roundB64pos (-q)

/-- The double denoted by a Python float literal: its decimal value
rounded to binary64. -/
def floatLit (q : ℚ) : ℚ := roundB64 q

/-- IEEE-754 binary64 addition: exact sum, then rounding. -/
def fadd (a b : ℚ) : ℚ := roundB64 (a + b)

/-- IEEE-754 binary64 subtraction: exact difference, then rounding. -/
def fsub (a b : ℚ) : ℚ := roundB64 (a - b)

/-- CombustionEngine.mass_flow_func as the program executes it, in
IEEE-754 binary64 arithmetic: each residual is rounded after every
operation, with Python's left-to-right association
(in3.m + in4.m) - out3.m for the combustion row. -/
def mass_flow_func_f64 {F : ℕ} (e : Engine F) : List ℚ :=
  [fsub (e.inl 0).m (e.outl 0).m,
   fsub (e.inl 1).m (e.outl 1).m,
   fsub (fadd (e.inl 2).m (e.inl 3).m) (e.outl 2).m]

/-- CombustionEngine.Q1_func (optional heat-output-1 target residual). -/
def Q1_func {F : ℕ} (e : Engine F) : ℚ :=
  (e.inl 0).m * ((e.outl 0).h - (e.inl 0).h) + e.Q1

/-- CombustionEngine.Q2_func (optional heat-output-2 target residual). -/
def Q2_func {F : ℕ} (e : Engine F) : ℚ :=
  (e.inl 1).m * ((e.outl 1).h - (e.inl 1).h) + e.Q2

/-- The reference enthalpy of the specification text: mixture enthalpy of
a composition at 298.15 K and 1e5 Pa with forced fully-gaseous phase. -/
def h_ref_spec {F : ℕ} (e : Engine F) (comp : Fin F → ℚ) : ℚ :=
  e.hMixPT 1e5 298.15 comp true

/-- The thermal input as worded by the specification: the
lower-heating-value-weighted net fuel mass flow over ports in3, in4, out3. -/
def thermal_input_spec {F : ℕ} (e : Engine F) : ℚ :=
  (e.fuel_list.map (fun f =>
    e.LHV f * ((e.inl 2).m * (e.inl 2).fluid f + (e.inl 3).m * (e.inl 3).fluid f
      - (e.outl 2).m * (e.outl 2).fluid f))).sum

/-- The energy-balance residual as worded by claim C1. -/
def energy_balance_claim {F : ℕ} (e : Engine F) : ℚ :=
  ((e.inl 2).m * ((e.inl 2).h - h_ref_spec e ((e.inl 2).fluid))
      + (e.inl 3).m * ((e.inl 3).h - h_ref_spec e ((e.inl 3).fluid)))
    - (e.outl 2).m * ((e.outl 2).h - h_ref_spec e ((e.outl 2).fluid))
    + thermal_input_spec e
    - ((e.inl 0).m * ((e.outl 0).h - (e.inl 0).h)
       + (e.inl 1).m * ((e.outl 1).h - (e.inl 1).h))
    + e.P + e.Qloss

/-- The load ratio as worded by claim C2: P over its design value when a
design value is recorded, and 1 otherwise. -/
def load_r {F : ℕ} (e : Engine F) : ℚ :=
  match e.Pdesign with
  | none => 1
  | some d => e.P / d

/-- The is_set flags of the ten optional-scalar parameter containers of a
CombustionEngine, as read by comp_init. -/
structure ParamFlags where
  lamb_set : Bool
  ti_set : Bool
  Q1_set : Bool
  Q2_set : Bool
  pr1_set : Bool
  pr2_set : Bool
  zeta1_set : Bool
  zeta2_set : Bool
  P_set : Bool
  Qloss_set : Bool

/-- The equation count computed by CombustionEngine.comp_init: the
mandatory block (cooling-loop fluid balances 2F, mass flow 3, pressure 2,
reaction balance F, energy balance plus characteristics 5), then one more
equation for each is_set parameter in the loop over lamb, ti, Q1, Q2,
pr1, pr2, zeta1, zeta2. -/
def comp_init_num_eq (num_nw_fluids : ℕ) (ps : ParamFlags) : ℕ :=
  [ps.lamb_set, ps.ti_set, ps.Q1_set, ps.Q2_set,
   ps.pr1_set, ps.pr2_set, ps.zeta1_set, ps.zeta2_set].foldl
    (fun acc b => if b then acc + 1 else acc)
    (num_nw_fluids * 2 + 3 + 2 + num_nw_fluids + 5)

/-- A parameter container's user-fixed and free-variable flags. -/
structure ParamVar where
  is_set : Bool
  is_var : Bool

/-- Modelled from the spec: Component.set_attr(name = 'var')
(ComponentProperties bookkeeping, not part of the source file) marks the
parameter as a free variable of the component; the component's
free-variable count grows by one per promoted parameter. -/
def mark_variable (p : ParamVar) : ParamVar :=
  { is_set := p.is_set, is_var := true }

/-- Outcome of the auto-promotion prologue of comp_init: the resulting P
and Qloss containers, the number of extra free variables contributed, and
the number of informational log messages emitted. -/
structure PromoResult where
  P : ParamVar
  Qloss : ParamVar
  extra_vars : ℕ
  info_msgs : ℕ

/-- The auto-promotion prologue of CombustionEngine.comp_init: if P is not
user-set it is promoted to a free variable with one logging.info message,
and independently likewise for Qloss; the function always returns (no
failure branch exists in the source). -/
def comp_init_promotions (P0 Qloss0 : ParamVar) : PromoResult :=
  let r1 : ParamVar × ℕ × ℕ :=
    if P0.is_set then (P0, 0, 0) else (mark_variable P0, 1, 1)
  let r2 : ParamVar × ℕ × ℕ :=
    if Qloss0.is_set then (Qloss0, 0, 0) else (mark_variable Qloss0, 1, 1)
  { P := r1.1, Qloss := r2.1,
    extra_vars := r1.2.1 + r2.2.1, info_msgs := r1.2.2 + r2.2.2 }

/-- The fuel averaging factor of CombustionEngine.initialise_fluids before
normalisation: fact_fuel[f] = sum over all four inlets of the fuel mass
fraction divided by 2. -/
def fact_fuel {F : ℕ} (e : Engine F) (f : Fin F) : ℚ :=
  ((List.finRange 4).map (fun i => (e.inl i).fluid f / 2)).sum

/-- sum_fuel of CombustionEngine.initialise_fluids: the sum of the raw
averaging factors over the fuel list. -/
def fact_fuel_sum {F : ℕ} (e : Engine F) : ℚ :=
  (e.fuel_list.map (fact_fuel e)).sum

/-- The flue-gas warm-start composition guess computed by
CombustionEngine.initialise_fluids: the N2, CO2, O2 and H2O mass fractions
(in this order) written to the flue-gas outlet.  Python divisions that
raise ZeroDivisionError are modelled by none: the normalisation of
fact_fuel by sum_fuel carries no zero guard in the source, and neither do
the later divisions by the molar masses and by m_fg. -/
def initialise_fluids_fg {F : ℕ} (e : Engine F) : Option (ℚ × ℚ × ℚ × ℚ) :=
  let N_2 : ℚ := 0.7655
  let O_2 : ℚ := 0.2345
  let n_fuel : ℚ := 1
  let lamb : ℚ := 3
  let sum_fuel := fact_fuel_sum e
  if sum_fuel = 0 then none else
  if e.molar_mass e.co2 = 0 then none else
  if e.molar_mass e.h2o = 0 then none else
  let fact := fun f => fact_fuel e f / sum_fuel
  let m_co2 := (e.fuel_list.map (fun f =>
    n_fuel * e.fuelC f * e.molar_mass e.co2 * fact f)).sum
  let m_h2o := (e.fuel_list.map (fun f =>
    n_fuel * e.fuelH f / 2 * e.molar_mass e.h2o * fact f)).sum
  let m_fuel := (e.fuel_list.map (fun f =>
    n_fuel * e.molar_mass f * fact f)).sum
  let n_o2 := (m_co2 / e.molar_mass e.co2 + 0.5 * m_h2o / e.molar_mass e.h2o) * lamb
  let m_air := n_o2 * e.molar_mass e.o2 / O_2
  let m_fg := m_air + m_fuel
  if m_fg = 0 then none else
  let m_o2 := n_o2 * e.molar_mass e.o2 * (1 - 1 / lamb)
  let m_n2 := N_2 * m_air
  some (m_n2 / m_fg, m_co2 / m_fg, m_o2 / m_fg, m_h2o / m_fg)

/-- One slot of the residual vector assembled by
CombustionEngine.equations: either written unconditionally every call, or
written only when the selective re-evaluation guard fires. -/
inductive Entry
  | uncond (v : ℚ)
  | guarded (v : ℚ)
  deriving DecidableEq

/-- The residual slots of CombustionEngine.equations in source order:
cooling-loop fluid balances and mass balances and combustion pressure
equalities (unconditional), reaction balance per fluid and the energy
balance and the four characteristic couplings (guarded), then the optional
rows: lambda, thermal input, Q1, Q2, pr1, pr2 targets (unconditional) and
the zeta1, zeta2 targets (guarded). -/
def entries {F : ℕ} (e : Engine F) : List Entry :=
  (fluid_func e).map Entry.uncond
    ++ (mass_flow_func e).map Entry.uncond
    ++ [Entry.uncond ((e.inl 2).p - (e.outl 2).p),
        Entry.uncond ((e.inl 2).p - (e.inl 3).p)]
    ++ (List.finRange F).map (fun f => Entry.guarded (e.reaction_balance_val f))
    ++ [Entry.guarded (energy_balance e),
        Entry.guarded (tiP_char_func e),
        Entry.guarded (Q1_char_func e),
        Entry.guarded (Q2_char_func e),
        Entry.guarded (Qloss_char_func e)]
    ++ (if e.lamb_set then [Entry.uncond e.lambda_func_val] else [])
    ++ (if e.ti_set then [Entry.uncond e.ti_func_val] else [])
    ++ (if e.Q1_set then [Entry.uncond (Q1_func e)] else [])
    ++ (if e.Q2_set then [Entry.uncond (Q2_func e)] else [])
    ++ (if e.pr1_set then [Entry.uncond (e.pr1 * (e.inl 0).p - (e.outl 0).p)] else [])
    ++ (if e.pr2_set then [Entry.uncond (e.pr2 * (e.inl 1).p - (e.outl 1).p)] else [])
    ++ (if e.zeta1_set then [Entry.guarded e.zeta_func_val1] else [])
    ++ (if e.zeta2_set then [Entry.guarded e.zeta_func_val2] else [])

/-- How one residual slot is written from its previous value: a guarded
slot is recomputed only when the previous magnitude exceeds err squared,
or the iteration counter is divisible by 4, or always_all_equations is
set; otherwise the previous value is kept. -/
def applyEntry {F : ℕ} (e : Engine F) (prevk : ℚ) : Entry → ℚ
  | Entry.uncond v => v
  | Entry.guarded v =>
      if |prevk| > e.err ^ 2 ∨ e.it % 4 = 0 ∨ e.always_all_equations = true
      then v else prevk

/-- CombustionEngine.equations: the residual vector after one assembly
call, given the residual vector left by the previous call. -/
def equations {F : ℕ} (e : Engine F) (prev : List ℚ) : List ℚ :=
  List.zipWith (applyEntry e) prev (entries e)

/-- CombustionEngine.bus_func; the ValueError raised on an invalid bus
parameter name is modelled by none. -/
def bus_func {F : ℕ} (e : Engine F) (param : String) : Option ℚ :=
  if param = "TI" then some (calc_ti e)
  else if param = "P" then some (calc_P e)
  else if param = "Q" then
    some (-((e.inl 0).m * ((e.outl 0).h - (e.inl 0).h))
          - (e.inl 1).m * ((e.outl 1).h - (e.inl 1).h))
  else if param = "Q1" then
    some (-((e.inl 0).m) * ((e.outl 0).h - (e.inl 0).h))
  else if param = "Q2" then
    some (-((e.inl 1).m) * ((e.outl 1).h - (e.inl 1).h))
  else if param = "Qloss" then some (calc_Qloss e)
  else none

/-- Write one scalar cell of a bus derivative row (port, variable). -/
def busW (d : ℕ → ℕ → ℚ) (i j : ℕ) (v : ℚ) : ℕ → ℕ → ℚ :=
  fun a b => if a = i ∧ b = j then v else d a b

/-- Write the composition slice (columns 3 to 3 + F) of a bus derivative
row at one port. -/
def busWfluid (F : ℕ) (d : ℕ → ℕ → ℚ) (i : ℕ) (g : ℕ → ℚ) : ℕ → ℕ → ℚ :=
  fun a b => if a = i ∧ 3 ≤ b ∧ b < 3 + F then g b else d a b

/-- CombustionEngine.bus_deriv: the 1-row Jacobian block for a bus
request, indexed (port or variable slot, network variable); the ValueError
raised on an invalid bus parameter name is modelled by none. -/
def bus_deriv {F : ℕ} (e : Engine F) (param : String) : Option (ℕ → ℕ → ℚ) :=
  let z : ℕ → ℕ → ℚ := fun _ _ => 0
  if param = "TI" then
    some (([2, 3, 6] : List ℕ).foldl
      (fun d i => busWfluid F (busW d i 0 (e.ndBus "TI" "m" i)) i (e.ndBus_fluid "TI" i)) z)
  else if param = "P" ∨ param = "Qloss" then
    some (
      let d := ([2, 3, 6] : List ℕ).foldl
        (fun d i => busWfluid F (busW d i 0 (e.ndBus param "m" i)) i (e.ndBus_fluid param i)) z
      if e.P_is_var then busW d (7 + e.P_var_pos) 0 (e.ndBus param "P" 7) else d)
  else if param = "Q" then
    some (([0, 1] : List ℕ).foldl
      (fun d i => busW (busW (busW d i 0 (e.ndBus "Q" "m" i)) i 2 (e.ndBus "Q" "h" i))
        (i + 4) 2 (e.ndBus "Q" "h" (i + 4))) z)
  else if param = "Q1" then
    some (busW (busW (busW z 0 0 (e.ndBus "Q1" "m" 0)) 0 2 (e.ndBus "Q1" "h" 0))
      4 2 (e.ndBus "Q1" "h" 4))
  else if param = "Q2" then
    some (busW (busW (busW z 1 0 (e.ndBus "Q2" "m" 1)) 1 2 (e.ndBus "Q2" "h" 1))
      5 2 (e.ndBus "Q2" "h" 5))
  else none

/-- CombustionEngine.fluid_deriv: the constant Jacobian block of the 2F
cooling-loop species equality rows (row, port, network variable). -/
def fluid_deriv (F : ℕ) : ℕ → ℕ → ℕ → ℚ := fun r i j =>
  if r < F then
    if i = 0 ∧ j = r + 3 then 1
    else if i = 4 ∧ j = r + 3 then -1
    else 0
  else if r < 2 * F then
    if i = 1 ∧ j = (r - F) + 3 then 1
    else if i = 5 ∧ j = (r - F) + 3 then -1
    else 0
  else 0

/-- CombustionEngine.mass_flow_deriv: the constant Jacobian block of the
three mass balance rows. -/
def mass_flow_deriv : ℕ → ℕ → ℕ → ℚ := fun r i j =>
  if r < 2 then
    if i = r ∧ j = 0 then 1
    else if i = 4 + r ∧ j = 0 then -1
    else 0
  else if r = 2 then
    if (i = 2 ∨ i = 3) ∧ j = 0 then 1
    else if i = 6 ∧ j = 0 then -1
    else 0
  else 0

/-- CombustionEngine.pressure_deriv: the constant Jacobian block of the
two combustion pressure equality rows. -/
def pressure_deriv : ℕ → ℕ → ℕ → ℚ := fun r i j =>
  if r = 0 then
    if i = 2 ∧ j = 1 then 1
    else if i = 6 ∧ j = 1 then -1
    else 0
  else if r = 1 then
    if i = 2 ∧ j = 1 then 1
    else if i = 3 ∧ j = 1 then -1
    else 0
  else 0

/-- The Jacobian left by CombustionEngine.comp_init: rows 0 to 2F-1 from
fluid_deriv, rows 2F to 2F+2 from mass_flow_deriv, rows 2F+3 and 2F+4 from
pressure_deriv, all remaining rows zero. -/
def comp_init_jacobian (F : ℕ) : ℕ → ℕ → ℕ → ℚ := fun r i j =>
  if r < 2 * F then fluid_deriv F r i j
  else if r < 2 * F + 3 then mass_flow_deriv (r - 2 * F) i j
  else if r < 2 * F + 5 then pressure_deriv (r - (2 * F + 3)) i j
  else 0

/-- One Jacobian cell write: (row, port or variable slot, network
variable, value). -/
abbrev JWrite : Type := ℕ × ℕ × ℕ × ℚ

/-- Attach a fixed row index to a list of (port, variable, value) cell
writes. -/
def atRow (k : ℕ) (ws : List (ℕ × ℕ × ℚ)) : List JWrite :=
  ws.map (fun w => (k, w.1, w.2.1, w.2.2))

/-- Cell writes that happen only under a Boolean condition (an
increment_filter entry or an is_var flag). -/
def condL (b : Bool) (ws : List (ℕ × ℕ × ℚ)) : List (ℕ × ℕ × ℚ) :=
  if b then ws else []

/-- not all(increment_filter[i, 3:]) for the F composition columns. -/
def anyUnf (F : ℕ) (filt : ℕ → ℕ → Bool) (i : ℕ) : Bool :=
  (List.finRange F).any (fun j => !(filt i (3 + j.val)))

/-- The composition-slice writes jacobian[k, i, 3:] = vector. -/
def fluidSlice (F : ℕ) (i : ℕ) (g : ℕ → ℚ) : List (ℕ × ℕ × ℚ) :=
  (List.finRange F).map (fun j => (i, 3 + j.val, g (3 + j.val)))

/-- Derivative writes of one reaction balance row (source: derivatives,
reaction balance block): finite differences w.r.t. mass flow and
composition at the combustion ports 2, 3 and 6, each filtered. -/
def rbRow {F : ℕ} (e : Engine F) (filt : ℕ → ℕ → Bool) (k : ℕ) (fi : Fin F) :
    List JWrite :=
  atRow k (
    condL (!filt 2 0) [(2, 0, e.rbnd_m 2 fi)]
      ++ condL (anyUnf F filt 2) (fluidSlice F 2 (e.rbnd_fluid 2 fi))
      ++ condL (!filt 3 0) [(3, 0, e.rbnd_m 3 fi)]
      ++ condL (anyUnf F filt 3) (fluidSlice F 3 (e.rbnd_fluid 3 fi))
      ++ condL (!filt 6 0) [(6, 0, e.rbnd_m 6 fi)]
      ++ condL (anyUnf F filt 6) (fluidSlice F 6 (e.rbnd_fluid 6 fi)))

/-- Derivative writes of the energy balance row: analytic cooling-loop
mass-flow and enthalpy columns, filtered finite differences for the
combustion ports, analytic LHV-weighted composition columns for the
fuels, and the P and Qloss variable columns when active. -/
def energyRow {F : ℕ} (e : Engine F) (filt : ℕ → ℕ → Bool) (k : ℕ) :
    List JWrite :=
  atRow k (
    [(0, 0, -((e.outl 0).h - (e.inl 0).h)),
     (1, 0, -((e.outl 1).h - (e.inl 1).h))]
      ++ (([2, 3, 6] : List ℕ).map (fun i =>
            condL (!filt i 0) [(i, 0, e.nd "energy_balance" "m" i)]
              ++ condL (!filt i 1) [(i, 1, e.nd "energy_balance" "p" i)])).flatten
      ++ [(0, 2, (e.inl 0).m), (1, 2, (e.inl 1).m),
          (2, 2, (e.inl 2).m), (3, 2, (e.inl 3).m)]
      ++ [(4, 2, -(e.outl 0).m), (5, 2, -(e.outl 1).m), (6, 2, -(e.outl 2).m)]
      ++ (e.fuel_list.map (fun fl =>
            [(2, 3 + fl.val, (e.inl 2).m * e.LHV fl),
             (3, 3 + fl.val, (e.inl 3).m * e.LHV fl),
             (6, 3 + fl.val, -((e.outl 2).m) * e.LHV fl)])).flatten
      ++ condL e.P_is_var [(7 + e.P_var_pos, 0, e.nd "energy_balance" "P" 7)]
      ++ condL e.Qloss_is_var
           [(7 + e.Qloss_var_pos, 0, e.nd "energy_balance" "Qloss" 7)])

/-- The filtered mass-flow and composition finite-difference writes over
the combustion ports 2, 3 and 6 shared by the four characteristic rows. -/
def mFluidBlock {F : ℕ} (e : Engine F) (filt : ℕ → ℕ → Bool)
    (fname : String) : List (ℕ × ℕ × ℚ) :=
  (([2, 3, 6] : List ℕ).map (fun i =>
    condL (!filt i 0) [(i, 0, e.nd fname "m" i)]
      ++ condL (anyUnf F filt i) (fluidSlice F i (e.nd_fluid fname i)))).flatten

/-- Derivative writes of the thermal-input characteristic row. -/
def tiPRow {F : ℕ} (e : Engine F) (filt : ℕ → ℕ → Bool) (k : ℕ) :
    List JWrite :=
  atRow k (mFluidBlock e filt "tiP_char_func"
    ++ condL e.P_is_var [(7 + e.P_var_pos, 0, e.nd "tiP_char_func" "P" 7)])

/-- Derivative writes of the heat-output-1 characteristic row. -/
def Q1cRow {F : ℕ} (e : Engine F) (filt : ℕ → ℕ → Bool) (k : ℕ) :
    List JWrite :=
  atRow k (
    condL (!filt 0 0) [(0, 0, e.nd "Q1_char_func" "m" 0)]
      ++ condL (!filt 0 2) [(0, 2, e.nd "Q1_char_func" "h" 0)]
      ++ condL (!filt 4 2) [(4, 2, e.nd "Q1_char_func" "h" 4)]
      ++ mFluidBlock e filt "Q1_char_func"
      ++ condL e.P_is_var [(7 + e.P_var_pos, 0, e.nd "Q1_char_func" "P" 7)])

/-- Derivative writes of the heat-output-2 characteristic row. -/
def Q2cRow {F : ℕ} (e : Engine F) (filt : ℕ → ℕ → Bool) (k : ℕ) :
    List JWrite :=
  atRow k (
    condL (!filt 1 0) [(1, 0, e.nd "Q2_char_func" "m" 1)]
      ++ condL (!filt 1 2) [(1, 2, e.nd "Q2_char_func" "h" 1)]
      ++ condL (!filt 5 2) [(5, 2, e.nd "Q2_char_func" "h" 5)]
      ++ mFluidBlock e filt "Q2_char_func"
      ++ condL e.P_is_var [(7 + e.P_var_pos, 0, e.nd "Q2_char_func" "P" 7)])

/-- Derivative writes of the heat-loss characteristic row. -/
def QlossRow {F : ℕ} (e : Engine F) (filt : ℕ → ℕ → Bool) (k : ℕ) :
    List JWrite :=
  atRow k (mFluidBlock e filt "Qloss_char_func"
    ++ condL e.P_is_var [(7 + e.P_var_pos, 0, e.nd "Qloss_char_func" "P" 7)]
    ++ condL e.Qloss_is_var
         [(7 + e.Qloss_var_pos, 0, e.nd "Qloss_char_func" "Qloss" 7)])

/-- Derivative writes of the optional lambda target row. -/
def lambRow {F : ℕ} (e : Engine F) (filt : ℕ → ℕ → Bool) (k : ℕ) :
    List JWrite :=
  atRow k (
    condL (!filt 2 0) [(2, 0, e.nd "lambda_func" "m" 2)]
      ++ condL (anyUnf F filt 2) (fluidSlice F 2 (e.nd_fluid "lambda_func" 2))
      ++ condL (!filt 3 0) [(3, 0, e.nd "lambda_func" "m" 3)]
      ++ condL (anyUnf F filt 3) (fluidSlice F 3 (e.nd_fluid "lambda_func" 3)))

/-- Derivative writes of the optional thermal-input target row (these are
unconditional in the source). -/
def tiRow {F : ℕ} (e : Engine F) (k : ℕ) : List JWrite :=
  atRow k ((([2, 3, 6] : List ℕ).map (fun i =>
    (i, 0, e.nd "ti_func" "m" i) :: fluidSlice F i (e.nd_fluid "ti_func" i))).flatten)

/-- Derivative writes of the optional Q1 target row (analytic). -/
def Q1Row {F : ℕ} (e : Engine F) (k : ℕ) : List JWrite :=
  atRow k [(0, 0, (e.outl 0).h - (e.inl 0).h),
           (0, 2, -(e.inl 0).m), (4, 2, (e.inl 0).m)]

/-- Derivative writes of the optional Q2 target row (analytic). -/
def Q2Row {F : ℕ} (e : Engine F) (k : ℕ) : List JWrite :=
  atRow k [(1, 0, (e.outl 1).h - (e.inl 1).h),
           (1, 2, -(e.inl 1).m), (5, 2, (e.inl 1).m)]

/-- Derivative writes of the optional pr1 target row (analytic). -/
def pr1Row {F : ℕ} (e : Engine F) (k : ℕ) : List JWrite :=
  atRow k [(0, 1, e.pr1), (4, 1, -1)]

/-- Derivative writes of the optional pr2 target row (analytic). -/
def pr2Row {F : ℕ} (e : Engine F) (k : ℕ) : List JWrite :=
  atRow k [(1, 1, e.pr2), (5, 1, -1)]

/-- Derivative writes of the optional zeta1 target row. -/
def zeta1Row {F : ℕ} (e : Engine F) (filt : ℕ → ℕ → Bool) (k : ℕ) :
    List JWrite :=
  atRow k (
    condL (!filt 0 0) [(0, 0, e.nd "zeta1" "m" 0)]
      ++ condL (!filt 0 1) [(0, 1, e.nd "zeta1" "p" 0)]
      ++ condL (!filt 0 2) [(0, 2, e.nd "zeta1" "h" 0)]
      ++ condL (!filt 4 1) [(4, 1, e.nd "zeta1" "p" 4)]
      ++ condL (!filt 4 2) [(4, 2, e.nd "zeta1" "h" 4)])

/-- Derivative writes of the optional zeta2 target row. -/
def zeta2Row {F : ℕ} (e : Engine F) (filt : ℕ → ℕ → Bool) (k : ℕ) :
    List JWrite :=
  atRow k (
    condL (!filt 1 0) [(1, 0, e.nd "zeta2" "m" 1)]
      ++ condL (!filt 1 1) [(1, 1, e.nd "zeta2" "p" 1)]
      ++ condL (!filt 1 2) [(1, 2, e.nd "zeta2" "h" 1)]
      ++ condL (!filt 5 1) [(5, 1, e.nd "zeta2" "p" 5)]
      ++ condL (!filt 5 2) [(5, 2, e.nd "zeta2" "h" 5)])

/-- Rows that happen only when their governing parameter is set. -/
def condW (b : Bool) (l : List JWrite) : List JWrite :=
  if b then l else []

/-- 1 when a Boolean is true, for the running row offset of the optional
equation rows. -/
def boolN (b : Bool) : ℕ := if b then 1 else 0

/-- All Jacobian writes performed by one CombustionEngine.derivatives
call, in source order.  The row counter starts at 2F + 5 and advances
exactly as in the source, skipping absent optional rows. -/
def derivWrites {F : ℕ} (e : Engine F) (filt : ℕ → ℕ → Bool) : List JWrite :=
  let k0 := F * 2 + 5
  ((List.finRange F).map (fun fi => rbRow e filt (k0 + fi.val) fi)).flatten
    ++ energyRow e filt (k0 + F)
    ++ tiPRow e filt (k0 + F + 1)
    ++ Q1cRow e filt (k0 + F + 2)
    ++ Q2cRow e filt (k0 + F + 3)
    ++ QlossRow e filt (k0 + F + 4)
    ++ (let k1 := k0 + F + 5
        let k2 := k1 + boolN e.lamb_set
        let k3 := k2 + boolN e.ti_set
        let k4 := k3 + boolN e.Q1_set
        let k5 := k4 + boolN e.Q2_set
        let k6 := k5 + boolN e.pr1_set
        let k7 := k6 + boolN e.pr2_set
        let k8 := k7 + boolN e.zeta1_set
        condW e.lamb_set (lambRow e filt k1)
          ++ condW e.ti_set (tiRow e k2)
          ++ condW e.Q1_set (Q1Row e k3)
          ++ condW e.Q2_set (Q2Row e k4)
          ++ condW e.pr1_set (pr1Row e k5)
          ++ condW e.pr2_set (pr2Row e k6)
          ++ condW e.zeta1_set (zeta1Row e filt k7)
          ++ condW e.zeta2_set (zeta2Row e filt k8))

/-- Apply one cell write to a Jacobian. -/
def applyWrite (J : ℕ → ℕ → ℕ → ℚ) (w : JWrite) : ℕ → ℕ → ℕ → ℚ :=
  fun r i j => if r = w.1 ∧ i = w.2.1 ∧ j = w.2.2.1 then w.2.2.2 else J r i j

/-- Apply a list of cell writes in order. -/
def applyWrites (J : ℕ → ℕ → ℕ → ℚ) (ws : List JWrite) : ℕ → ℕ → ℕ → ℚ :=
  ws.foldl applyWrite J

/-- CombustionEngine.derivatives as a transformation of the Jacobian. -/
def derivatives {F : ℕ} (e : Engine F) (filt : ℕ → ℕ → Bool)
    (J : ℕ → ℕ → ℕ → ℚ) : ℕ → ℕ → ℕ → ℚ :=
  applyWrites J (derivWrites e filt)

/-- The port connections of a combustion engine inside a propagation
network: four inlet and three outlet connection ids. -/
structure PropIO (m : ℕ) where
  inlc : Fin 4 → Fin m
  outlc : Fin 3 → Fin m

/-- A component of a propagation network: either a CombustionEngine
(whose propagation methods are the source code under verification) or,
modelled from the spec, any other component kind with its inlet and
outlet connections (spec section 4.5: propagation recurses through the
network graph with a stop-at-origin guard). -/
inductive CompKind (m : ℕ)
  | engine (io : PropIO m)
  | generic (ins outs : List (Fin m))

/-- A network for fluid propagation: n components, m connections, each
connection knowing its source and target component and which of its fluid
fractions are user-set, plus the good_starting_values flag. -/
structure PropNet (F n m : ℕ) where
  kind : Fin n → CompKind m
  target : Fin m → Fin n
  source : Fin m → Fin n
  val_set : Fin m → Fin F → Bool
  good_starting_values : Fin m → Bool

/-- The fluid mass-fraction vectors of all connections. -/
abbrev NetState (F m : ℕ) : Type := Fin m → Fin F → ℚ

/-- The copy loop of the propagation methods: each fluid fraction of the
connection being written is overwritten from the connection being read,
unless that fraction is user-set or the written connection already has
good starting values. -/
def copyTo {F n m : ℕ} (net : PropNet F n m) (s : NetState F m)
    (readc writec : Fin m) : NetState F m :=
  fun c f =>
    if c = writec ∧ net.val_set writec f = false
        ∧ net.good_starting_values writec = false
    then s readc f else s c f

/-- Fluid propagation towards targets.  For an engine this is
CombustionEngine.propagate_fluid_to_target: iterate over the first two
outlets (the cooling loops) only, copy the incoming composition, and
recurse into each outlet's target, passing start through unchanged and
never consulting it.  For any other component kind the behaviour is
modelled from the spec: stop when the component is the propagation
origin, otherwise do the same over all its outlets.  The fuel argument
bounds the recursion depth; none means the bound was exhausted before the
recursion returned. -/
def propagate_to_target {F n m : ℕ} (net : PropNet F n m) :
    ℕ → Fin n → Fin m → Fin n → NetState F m → Option (NetState F m)
  | 0, _, _, _, _ => none
  | fuel + 1, comp, inconn, start, s =>
    match net.kind comp with
    | CompKind.engine io =>
        List.foldlM
          (fun st oc => propagate_to_target net fuel (net.target oc) oc start
            (copyTo net st inconn oc))
          s [io.outlc 0, io.outlc 1]
    | CompKind.generic _ outs =>
        if comp = start then some s
        else
          List.foldlM
            (fun st oc => propagate_to_target net fuel (net.target oc) oc start
              (copyTo net st inconn oc))
            s outs

/-- Fluid propagation towards sources, mirroring propagate_to_target.
For an engine this is CombustionEngine.propagate_fluid_to_source: iterate
over the first two inlets (the cooling loops) only, copy the outgoing
composition onto them, and recurse into each inlet's source. -/
def propagate_to_source {F n m : ℕ} (net : PropNet F n m) :
    ℕ → Fin n → Fin m → Fin n → NetState F m → Option (NetState F m)
  | 0, _, _, _, _ => none
  | fuel + 1, comp, outconn, start, s =>
    match net.kind comp with
    | CompKind.engine io =>
        List.foldlM
          (fun st ic => propagate_to_source net fuel (net.source ic) ic start
            (copyTo net st outconn ic))
          s [io.inlc 0, io.inlc 1]
    | CompKind.generic ins _ =>
        if comp = start then some s
        else
          List.foldlM
            (fun st ic => propagate_to_source net fuel (net.source ic) ic start
              (copyTo net st outconn ic))
            s ins

/-- Connections that target-direction propagation can ever write: the
first two (cooling-loop) outlets of an engine, or any outlet of a generic
component. -/
def targetWritable {F n m : ℕ} (net : PropNet F n m) (c : Fin m) : Bool :=
  (List.finRange n).any (fun comp =>
    match net.kind comp with
    | CompKind.engine io => decide (c = io.outlc 0) || decide (c = io.outlc 1)
    | CompKind.generic _ outs => decide (c ∈ outs))

/-- Connections that source-direction propagation can ever write: the
first two (cooling-loop) inlets of an engine, or any inlet of a generic
component. -/
def sourceWritable {F n m : ℕ} (net : PropNet F n m) (c : Fin m) : Bool :=
  (List.finRange n).any (fun comp =>
    match net.kind comp with
    | CompKind.engine io => decide (c = io.inlc 0) || decide (c = io.inlc 1)
    | CompKind.generic ins _ => decide (c ∈ ins))

/-- An all-zero connection over one network fluid, for concrete tests. -/
def conn0 : Conn 1 :=
  { m := 0, p := 0, h := 0, fluid := fun _ => 0 }

/-- A concrete engine state over one network fluid with all scalar fields
zero, no fuels, no optional parameters set and zero-valued collaborator
functions; concrete test states below are variations of it. -/
def eng1 : Engine 1 :=
  { inl := fun _ => conn0, outl := fun _ => conn0,
    P := 0, Qloss := 0, Pdesign := none,
    P_is_var := false, P_var_pos := 0,
    Qloss_is_var := false, Qloss_var_pos := 0,
    Q1 := 0, Q2 := 0, pr1 := 0, pr2 := 0,
    lamb_set := false, ti_set := false, Q1_set := false, Q2_set := false,
    pr1_set := false, pr2_set := false, zeta1_set := false, zeta2_set := false,
    fuel_list := [], LHV := fun _ => 0, fuelC := fun _ => 0, fuelH := fun _ => 0,
    molar_mass := fun _ => 0, co2 := 0, o2 := 0, h2o := 0, n2 := 0,
    hMixPT := fun _ _ _ _ => 0,
    tiP_char := fun _ => 0, Q1_char := fun _ => 0,
    Q2_char := fun _ => 0, Qloss_char := fun _ => 0,
    reaction_balance_val := fun _ => 0,
    lambda_func_val := 0, ti_func_val := 0,
    zeta_func_val1 := 0, zeta_func_val2 := 0,
    nd := fun _ _ _ => 0, nd_fluid := fun _ _ _ => 0,
    rbnd_m := fun _ _ => 0, rbnd_fluid := fun _ _ _ => 0,
    ndBus := fun _ _ _ => 0, ndBus_fluid := fun _ _ _ => 0,
    it := 0, always_all_equations := false, err := 0 }

/-- Concrete state for the C5 analysis: only the lambda target is active,
its base-class residual value is 1, the iteration counter is 1, the
always_all_equations flag is off and err is 1/10000. -/
def ce5 : Engine 1 :=
  { eng1 with lamb_set := true, lambda_func_val := 1, it := 1, err := 1 / 10000 }

/-- Concrete state realising the mass-flow scenario of claim C9 with the
mass flows holding exactly the IEEE-754 binary64 values of the literals
5, 3, 0.2, 0.1 (inlets) and 5, 3, 0.3 (outlets): the doubles nearest to
0.2, 0.1 and 0.3 are 3602879701896397/2^54, 3602879701896397/2^55 and
5404319552844595/2^54. -/
def e9f : Engine 1 :=
  { eng1 with
    inl := fun i =>
      if i = 0 then { conn0 with m := 5 }
      else if i = 1 then { conn0 with m := 3 }
      else if i = 2 then { conn0 with m := 3602879701896397 / 2 ^ 54 }
      else { conn0 with m := 3602879701896397 / 2 ^ 55 },
    outl := fun i =>
      if i = 0 then { conn0 with m := 5 }
      else if i = 1 then { conn0 with m := 3 }
      else { conn0 with m := 5404319552844595 / 2 ^ 54 } }

/-- Concrete state for C10 with one fuel whose mass fraction is zero at
every inlet. -/
def e10a : Engine 1 :=
  { eng1 with
    fuel_list := [0]
    molar_mass := fun _ => 16
    fuelC := fun _ => 1
    fuelH := fun _ => 4 }

/-- Concrete state for C10 with one fuel fully present at every inlet. -/
def e10b : Engine 1 :=
  { e10a with inl := fun _ => { conn0 with fluid := fun _ => 1 } }

/-- Port connections of the concrete engine in the two-component
propagation test network: inlets are connections 0 to 3, outlets are
connections 4 to 6. -/
def io0 : PropIO 8 :=
  { inlc := fun i => ⟨i.val, by have := i.isLt; omega⟩,
    outlc := fun i => ⟨4 + i.val, by have := i.isLt; omega⟩ }

/-- A two-component network: component 0 is an engine, component 1 is a
generic component with no ports (so propagation through it stops); every
connection targets and sources component 1. -/
def wNet : PropNet 1 2 8 :=
  { kind := fun c => if c = 0 then CompKind.engine io0 else CompKind.generic [] [],
    target := fun _ => 1, source := fun _ => 1,
    val_set := fun _ _ => false, good_starting_values := fun _ => false }

/-- An all-zero state of the eight-connection networks. -/
def wS : NetState 1 8 := fun _ _ => 0

/-- Engine A of the cyclic cooling-loop network: cooling inlets 0 and 1,
combustion inlets 2 and 3, cooling outlets 4 and 5, flue outlet 6. -/
def cycIoA : PropIO 8 :=
  { inlc := fun i => ⟨i.val, by have := i.isLt; omega⟩,
    outlc := fun i => ⟨4 + i.val, by have := i.isLt; omega⟩ }

/-- Engine B of the cyclic cooling-loop network: its cooling inlets are
the cooling outlets 4 and 5 of engine A, and its cooling outlets are the
cooling inlets 0 and 1 of engine A, closing the loop. -/
def cycIoB : PropIO 8 :=
  { inlc := fun i => ⟨4 + i.val, by have := i.isLt; omega⟩,
    outlc := fun i => ⟨i.val, by have := i.isLt; omega⟩ }

/-- A cyclic topology built exclusively from combustion engines: the
cooling loops of engines A and B feed each other, so target-direction
propagation starting anywhere keeps alternating between them. -/
def cycNet : PropNet 1 2 8 :=
  { kind := fun c => if c = 0 then CompKind.engine cycIoA else CompKind.engine cycIoB,
    target := fun c => if c.val ≤ 3 then 0 else 1,
    source := fun c => if c.val ≤ 3 then 1 else 0,
    val_set := fun _ _ => false, good_starting_values := fun _ => false }

/-- calc_ti computes exactly the thermal input as worded by the spec; the
two differ only in the order of the per-fuel multiplication. -/
theorem calc_ti_eq_spec {F : ℕ} (e : Engine F) :
    calc_ti e = thermal_input_spec e := by
  unfold calc_ti thermal_input_spec
  congr 1
  refine List.map_congr_left (fun f _ => ?_)
  ring

/-- C1: for every state of the seven port connections and of P and Qloss,
the energy-balance residual equals the claimed combination of the
combustion-side enthalpy differences against the 298.15 K / 1e5 Pa
forced-gas reference enthalpies, the thermal input, the cooling-loop
enthalpy rises, the power and the heat loss. -/
theorem C1_energy_balance {F : ℕ} (e : Engine F) :
    energy_balance e = energy_balance_claim e := by
  unfold energy_balance energy_balance_claim h_ref_spec
  rw [calc_ti_eq_spec]
  ring

/-- C2: the four characteristic coupling residuals equal the claimed
formulas in the load ratio (P over its recorded design value, or 1 when
no design value is recorded). -/
theorem C2_char_couplings {F : ℕ} (e : Engine F) :
    tiP_char_func e = thermal_input_spec e + e.tiP_char (load_r e) * e.P
    ∧ Q1_char_func e = thermal_input_spec e * e.Q1_char (load_r e)
        - e.tiP_char (load_r e) * ((e.inl 0).m * ((e.outl 0).h - (e.inl 0).h))
    ∧ Q2_char_func e = thermal_input_spec e * e.Q2_char (load_r e)
        - e.tiP_char (load_r e) * ((e.inl 1).m * ((e.outl 1).h - (e.inl 1).h))
    ∧ Qloss_char_func e = thermal_input_spec e * e.Qloss_char (load_r e)
        + e.tiP_char (load_r e) * e.Qloss := by
  have hl : load_r e = Pexpr e := rfl
  have ht := calc_ti_eq_spec e
  refine ⟨?_, ?_, ?_, ?_⟩ <;>
    simp only [tiP_char_func, Q1_char_func, Q2_char_func, Qloss_char_func, hl, ht]

/-- Folding the is_set counting loop of comp_init equals the base count
plus the number of true flags. -/
theorem foldl_count_true (l : List Bool) (b0 : ℕ) :
    l.foldl (fun acc b => if b then acc + 1 else acc) b0
      = b0 + (l.map (fun b => if b then 1 else 0)).sum := by
  induction l generalizing b0 with
  | nil => simp
  | cons x xs ih =>
      cases x
      · simp [ih]
      · simp [ih]
        omega

/-- C3: the equation count set by comp_init is 2F (cooling-loop species
equality) + 3 (mass balance) + 2 (combustion pressure equality) + F
(reaction balance) + 5 (energy balance and the four couplings) plus one
per set flag among lamb, ti, Q1, Q2, pr1, pr2, zeta1, zeta2, and it does
not depend on the is_set flags of P and Qloss. -/
theorem C3_num_eq (F : ℕ) (ps : ParamFlags) :
    comp_init_num_eq F ps
      = F * 2 + 3 + 2 + F + 5
        + ((if ps.lamb_set then 1 else 0) + (if ps.ti_set then 1 else 0)
            + (if ps.Q1_set then 1 else 0) + (if ps.Q2_set then 1 else 0)
            + (if ps.pr1_set then 1 else 0) + (if ps.pr2_set then 1 else 0)
            + (if ps.zeta1_set then 1 else 0) + (if ps.zeta2_set then 1 else 0))
    ∧ (∀ b1 b2 : Bool,
        comp_init_num_eq F { ps with P_set := b1, Qloss_set := b2 }
          = comp_init_num_eq F ps) := by
  constructor
  · rw [comp_init_num_eq, foldl_count_true]
    simp only [List.map_cons, List.map_nil, List.sum_cons, List.sum_nil, add_zero]
    ring
  · intro b1 b2
    rfl

/-- C4: comp_init promotes an unset P to a free variable with one
informational message, independently likewise for Qloss, and contributes
one extra free variable per promotion; there is no failing branch. -/
theorem C4_auto_promotion (P0 Qloss0 : ParamVar) :
    (P0.is_set = false → (comp_init_promotions P0 Qloss0).P.is_var = true)
    ∧ (Qloss0.is_set = false →
        (comp_init_promotions P0 Qloss0).Qloss.is_var = true)
    ∧ (comp_init_promotions P0 Qloss0).extra_vars
        = (if P0.is_set then 0 else 1) + (if Qloss0.is_set then 0 else 1)
    ∧ (comp_init_promotions P0 Qloss0).info_msgs
        = (if P0.is_set then 0 else 1) + (if Qloss0.is_set then 0 else 1) := by
  rcases P0 with ⟨ps, pv⟩
  rcases Qloss0 with ⟨qs, qv⟩
  cases ps <;> cases qs <;> simp [comp_init_promotions, mark_variable]

/-- Witness for C4 at a concrete unset P and Qloss. -/
theorem C4_auto_promotion_witness :
    (comp_init_promotions ⟨false, false⟩ ⟨false, false⟩).P.is_var = true
    ∧ (comp_init_promotions ⟨false, false⟩ ⟨false, false⟩).Qloss.is_var = true := by
  exact ⟨(C4_auto_promotion ⟨false, false⟩ ⟨false, false⟩).1 rfl,
    (C4_auto_promotion ⟨false, false⟩ ⟨false, false⟩).2.1 rfl⟩

/-- Int.log 2 evaluates to L when the value sits in the binade
[2^L, 2^(L+1)). -/
theorem int_log_eval (r : ℚ) (L : ℤ) (hr : 0 < r)
    (h1 : (2 : ℚ) ^ L ≤ r) (h2 : r < (2 : ℚ) ^ (L + 1)) :
    Int.log 2 r = L := by
  have hc : ((2 : ℕ) : ℚ) = (2 : ℚ) := by norm_num
  have ha : L ≤ Int.log 2 r := by
    rw [← Int.zpow_le_iff_le_log (by norm_num) hr, hc]
    exact h1
  have hb : Int.log 2 r < L + 1 := by
    rw [← Int.lt_zpow_iff_log_lt (by norm_num) hr, hc]
    exact h2
  omega

/-- Rounding ties-to-even rounds down below the midpoint. -/
theorem roundTiesEven_down (q : ℚ) (f : ℤ) (hf : ⌊q⌋ = f)
    (hr : q - (f : ℚ) < 1 / 2) : roundTiesEven q = f := by
  unfold roundTiesEven
  rw [hf, if_pos hr]

/-- Rounding ties-to-even rounds up above the midpoint. -/
theorem roundTiesEven_up (q : ℚ) (f : ℤ) (hf : ⌊q⌋ = f)
    (hr : 1 / 2 < q - (f : ℚ)) : roundTiesEven q = f + 1 := by
  unfold roundTiesEven
  rw [hf, if_neg (by linarith), if_pos hr]

/-- Rounding ties-to-even rounds a midpoint away from an odd floor. -/
theorem roundTiesEven_tie_odd (q : ℚ) (f : ℤ) (hf : ⌊q⌋ = f)
    (hr : q - (f : ℚ) = 1 / 2) (ho : ¬ f % 2 = 0) :
    roundTiesEven q = f + 1 := by
  unfold roundTiesEven
  rw [hf, if_neg (by rw [hr]; norm_num), if_neg (by rw [hr]; norm_num),
    if_neg ho]

/-- Evaluation scheme for binary64 rounding of a positive value, given
its binade exponent L and the rounded significand computation. -/
theorem roundB64_eval_pos (q rq : ℚ) (L : ℤ) (hq : 0 < q)
    (h1 : (2 : ℚ) ^ L ≤ q) (h2 : q < (2 : ℚ) ^ (L + 1))
    (hres : (roundTiesEven (q / (2 : ℚ) ^ (L - 52)) : ℚ) * (2 : ℚ) ^ (L - 52)
      = rq) :
    roundB64 q = rq := by
  have hl : Int.log 2 q = L := int_log_eval q L hq h1 h2
  unfold roundB64
  rw [if_neg (ne_of_gt hq), if_pos hq]
  unfold roundB64pos
  rw [hl]
  exact hres

/-- The literal 5 is exactly representable in binary64. -/
theorem floatLit_5 : floatLit (5 : ℚ) = 5 := by
  unfold floatLit
  refine roundB64_eval_pos (5 : ℚ) _ 2 (by norm_num) (by norm_num) (by norm_num) ?_
  rw [show (2 : ℤ) - 52 = -50 from by norm_num]
  have hf : ⌊(5 : ℚ) / (2 : ℚ) ^ (-50 : ℤ)⌋ = 5629499534213120 := by
    rw [Int.floor_eq_iff]
    constructor <;> norm_num
  rw [roundTiesEven_down _ 5629499534213120 hf (by push_cast; norm_num)]
  push_cast
  norm_num

/-- The literal 3 is exactly representable in binary64. -/
theorem floatLit_3 : floatLit (3 : ℚ) = 3 := by
  unfold floatLit
  refine roundB64_eval_pos (3 : ℚ) _ 1 (by norm_num) (by norm_num) (by norm_num) ?_
  rw [show (1 : ℤ) - 52 = -51 from by norm_num]
  have hf : ⌊(3 : ℚ) / (2 : ℚ) ^ (-51 : ℤ)⌋ = 6755399441055744 := by
    rw [Int.floor_eq_iff]
    constructor <;> norm_num
  rw [roundTiesEven_down _ 6755399441055744 hf (by push_cast; norm_num)]
  push_cast
  norm_num

/-- The double nearest the literal 0.2. -/
theorem floatLit_02 : floatLit (0.2 : ℚ) = 3602879701896397 / 2 ^ 54 := by
  unfold floatLit
  refine roundB64_eval_pos (0.2 : ℚ) _ (-3) (by norm_num) (by norm_num)
    (by norm_num) ?_
  rw [show (-3 : ℤ) - 52 = -55 from by norm_num]
  have hf : ⌊(0.2 : ℚ) / (2 : ℚ) ^ (-55 : ℤ)⌋ = 7205759403792793 := by
    rw [Int.floor_eq_iff]
    constructor <;> norm_num
  rw [roundTiesEven_up _ 7205759403792793 hf (by push_cast; norm_num)]
  push_cast
  norm_num

/-- The double nearest the literal 0.1. -/
theorem floatLit_01 : floatLit (0.1 : ℚ) = 3602879701896397 / 2 ^ 55 := by
  unfold floatLit
  refine roundB64_eval_pos (0.1 : ℚ) _ (-4) (by norm_num) (by norm_num)
    (by norm_num) ?_
  rw [show (-4 : ℤ) - 52 = -56 from by norm_num]
  have hf : ⌊(0.1 : ℚ) / (2 : ℚ) ^ (-56 : ℤ)⌋ = 7205759403792793 := by
    rw [Int.floor_eq_iff]
    constructor <;> norm_num
  rw [roundTiesEven_up _ 7205759403792793 hf (by push_cast; norm_num)]
  push_cast
  norm_num

/-- The double nearest the literal 0.3. -/
theorem floatLit_03 : floatLit (0.3 : ℚ) = 5404319552844595 / 2 ^ 54 := by
  unfold floatLit
  refine roundB64_eval_pos (0.3 : ℚ) _ (-2) (by norm_num) (by norm_num)
    (by norm_num) ?_
  rw [show (-2 : ℤ) - 52 = -54 from by norm_num]
  have hf : ⌊(0.3 : ℚ) / (2 : ℚ) ^ (-54 : ℤ)⌋ = 5404319552844595 := by
    rw [Int.floor_eq_iff]
    constructor <;> norm_num
  rw [roundTiesEven_down _ 5404319552844595 hf (by push_cast; norm_num)]
  push_cast
  norm_num

/-- Binary64 addition of the doubles for 0.2 and 0.1: the exact sum has
54 significant bits and falls on a midpoint, so ties-to-even rounds it
up to 5404319552844596/2^54 (the double 0.30000000000000004). -/
theorem fadd_02_01 : fadd (3602879701896397 / 2 ^ 54) (3602879701896397 / 2 ^ 55)
    = 5404319552844596 / 2 ^ 54 := by
  unfold fadd
  rw [show (3602879701896397 / 2 ^ 54 + 3602879701896397 / 2 ^ 55 : ℚ)
    = 10808639105689191 / 2 ^ 55 from by norm_num]
  refine roundB64_eval_pos _ _ (-2) (by norm_num) (by norm_num) (by norm_num) ?_
  rw [show (-2 : ℤ) - 52 = -54 from by norm_num]
  have hf : ⌊(10808639105689191 / 2 ^ 55 : ℚ) / (2 : ℚ) ^ (-54 : ℤ)⌋
      = 5404319552844595 := by
    rw [Int.floor_eq_iff]
    constructor <;> norm_num
  rw [roundTiesEven_tie_odd _ 5404319552844595 hf (by push_cast; norm_num)
    (by decide)]
  push_cast
  norm_num

/-- Binary64 subtraction of the double for 0.3 from the rounded sum: the
exact difference 2^-54 is representable, so it is returned unchanged. -/
theorem fsub_02_01_03 :
    fsub (5404319552844596 / 2 ^ 54) (5404319552844595 / 2 ^ 54)
      = 1 / 2 ^ 54 := by
  unfold fsub
  rw [show (5404319552844596 / 2 ^ 54 - 5404319552844595 / 2 ^ 54 : ℚ)
    = 1 / 2 ^ 54 from by norm_num]
  refine roundB64_eval_pos _ _ (-54) (by norm_num) (by norm_num) (by norm_num) ?_
  rw [show (-54 : ℤ) - 52 = -106 from by norm_num]
  have hf : ⌊(1 / 2 ^ 54 : ℚ) / (2 : ℚ) ^ (-106 : ℤ)⌋ = 4503599627370496 := by
    rw [Int.floor_eq_iff]
    constructor <;> norm_num
  rw [roundTiesEven_down _ 4503599627370496 hf (by push_cast; norm_num)]
  push_cast
  norm_num

/-- Binary64 subtraction of equal values is exactly zero. -/
theorem fsub_self (a : ℚ) : fsub a a = 0 := by
  unfold fsub roundB64
  rw [sub_self, if_pos rfl]

/-- C9 (amended): with the mass flows holding the binary64 values of the
claimed literals (5, 3, 0.2, 0.1 at the inlets; 5, 3, 0.3 at the
outlets), the residuals computed in the program's IEEE-754 double
arithmetic are [0, 0, 2^-54]: the first two are exactly zero, while the
third is the rounding residue of (0.2 + 0.1) - 0.3, about 5.55e-17, and
is not exactly zero. -/
theorem C9_mass_flow_f64 {F : ℕ} (e : Engine F)
    (h1 : (e.inl 0).m = floatLit 5) (h2 : (e.inl 1).m = floatLit 3)
    (h3 : (e.inl 2).m = floatLit 0.2) (h4 : (e.inl 3).m = floatLit 0.1)
    (h5 : (e.outl 0).m = floatLit 5) (h6 : (e.outl 1).m = floatLit 3)
    (h7 : (e.outl 2).m = floatLit 0.3) :
    mass_flow_func_f64 e = [0, 0, 1 / 2 ^ 54] := by
  rw [mass_flow_func_f64, h1, h2, h3, h4, h5, h6, h7, floatLit_5, floatLit_3,
    floatLit_02, floatLit_01, floatLit_03, fsub_self, fsub_self, fadd_02_01,
    fsub_02_01_03]

/-- Concrete evaluation of the binary64 residuals at e9f. -/
theorem e9f_residuals : mass_flow_func_f64 e9f = [0, 0, 1 / 2 ^ 54] := by
  show [fsub 5 5, fsub 3 3,
    fsub (fadd (3602879701896397 / 2 ^ 54) (3602879701896397 / 2 ^ 55))
      (5404319552844595 / 2 ^ 54)] = [0, 0, 1 / 2 ^ 54]
  rw [fsub_self, fsub_self, fadd_02_01, fsub_02_01_03]

/-- C9 counterexample: at e9f, whose mass flows are exactly the binary64
values of the claimed literals, the residual vector computed in the
program's double arithmetic is not exactly [0, 0, 0] (its third entry is
2^-54, about 5.551115123125783e-17). -/
theorem C9_counterexample :
    (e9f.inl 0).m = floatLit 5 ∧ (e9f.inl 1).m = floatLit 3
    ∧ (e9f.inl 2).m = floatLit 0.2 ∧ (e9f.inl 3).m = floatLit 0.1
    ∧ (e9f.outl 0).m = floatLit 5 ∧ (e9f.outl 1).m = floatLit 3
    ∧ (e9f.outl 2).m = floatLit 0.3
    ∧ mass_flow_func_f64 e9f ≠ [0, 0, 0] := by
  refine ⟨by rw [floatLit_5]; rfl, by rw [floatLit_3]; rfl,
    by rw [floatLit_02]; rfl, by rw [floatLit_01]; rfl,
    by rw [floatLit_5]; rfl, by rw [floatLit_3]; rfl,
    by rw [floatLit_03]; rfl, ?_⟩
  rw [e9f_residuals]
  norm_num

/-- Witness for the amended C9 at the concrete state e9f. -/
theorem C9_mass_flow_f64_witness :
    mass_flow_func_f64 e9f = [0, 0, 1 / 2 ^ 54] :=
  C9_mass_flow_f64 e9f (by rw [floatLit_5]; rfl) (by rw [floatLit_3]; rfl)
    (by rw [floatLit_02]; rfl) (by rw [floatLit_01]; rfl)
    (by rw [floatLit_5]; rfl) (by rw [floatLit_3]; rfl)
    (by rw [floatLit_03]; rfl)

/-- When every fuel fraction vanishes at every inlet, the sum of the raw
averaging factors of initialise_fluids is zero. -/
theorem fact_fuel_sum_zero {F : ℕ} (e : Engine F)
    (hz : ∀ f ∈ e.fuel_list, ∀ i : Fin 4, (e.inl i).fluid f = 0) :
    fact_fuel_sum e = 0 := by
  unfold fact_fuel_sum
  refine List.sum_eq_zero (fun x hx => ?_)
  rcases List.mem_map.mp hx with ⟨f, hf, rfl⟩
  unfold fact_fuel
  refine List.sum_eq_zero (fun y hy => ?_)
  rcases List.mem_map.mp hy with ⟨i, _, rfl⟩
  rw [hz f hf i]
  norm_num

/-- C10: the composition guess of initialise_fluids divides by the sum of
average fuel fractions with no zero guard, so it is undefined (Python
ZeroDivisionError, modelled as none) whenever every fuel fraction is zero
at every inlet; and whenever it is defined, some fuel has a (with
nonnegative fractions: positive) fraction at some inlet. -/
theorem C10_initialise_fluids_guard {F : ℕ} (e : Engine F) :
    ((∀ f ∈ e.fuel_list, ∀ i : Fin 4, (e.inl i).fluid f = 0) →
      initialise_fluids_fg e = none)
    ∧ ((∀ f ∈ e.fuel_list, ∀ i : Fin 4, 0 ≤ (e.inl i).fluid f) →
        (initialise_fluids_fg e).isSome = true →
        ∃ f ∈ e.fuel_list, ∃ i : Fin 4, 0 < (e.inl i).fluid f) := by
  have h1 : (∀ f ∈ e.fuel_list, ∀ i : Fin 4, (e.inl i).fluid f = 0) →
      initialise_fluids_fg e = none := by
    intro hz
    have hs := fact_fuel_sum_zero e hz
    unfold initialise_fluids_fg
    rw [if_pos hs]
  refine ⟨h1, fun hnn hsome => ?_⟩
  by_contra hne
  push_neg at hne
  have hz : ∀ f ∈ e.fuel_list, ∀ i : Fin 4, (e.inl i).fluid f = 0 :=
    fun f hf i => le_antisymm (hne f hf i) (hnn f hf i)
  rw [h1 hz] at hsome
  exact Bool.noConfusion hsome

/-- The finite index range over the four inlets, enumerated. -/
theorem finRange4 : (List.finRange 4) = [0, 1, 2, 3] := by decide

/-- Concrete evaluation: the raw averaging factor of e10b is 2. -/
theorem fact_fuel_e10b : ∀ f, fact_fuel e10b f = 2 := by
  intro f
  have hinl : ∀ i : Fin 4, (e10b.inl i).fluid f = 1 := fun i => rfl
  rw [fact_fuel, finRange4]
  simp only [List.map_cons, List.map_nil, List.sum_cons, List.sum_nil, hinl]
  norm_num

/-- Concrete evaluation: sum_fuel of e10b is 2. -/
theorem fact_fuel_sum_e10b : fact_fuel_sum e10b = 2 := by
  have hl : e10b.fuel_list = [0] := rfl
  rw [fact_fuel_sum, hl]
  simp only [List.map_cons, List.map_nil, List.sum_cons, List.sum_nil,
    fact_fuel_e10b]
  norm_num

/-- Concrete evaluation: the composition guess at e10b is defined. -/
theorem e10b_some : (initialise_fluids_fg e10b).isSome = true := by
  have hl : e10b.fuel_list = [0] := rfl
  have hmm : ∀ f, e10b.molar_mass f = 16 := fun f => rfl
  have hC : ∀ f, e10b.fuelC f = 1 := fun f => rfl
  have hH : ∀ f, e10b.fuelH f = 4 := fun f => rfl
  simp only [initialise_fluids_fg, fact_fuel_sum_e10b, fact_fuel_e10b, hl,
    hmm, hC, hH, List.map_cons, List.map_nil, List.sum_cons, List.sum_nil]
  norm_num

/-- Witness for C10: at e10a (all fuel fractions zero) the guess is
undefined; at e10b (fuel fully present at every inlet) it is defined and
the claimed positive fraction exists. -/
theorem C10_initialise_fluids_guard_witness :
    initialise_fluids_fg e10a = none
    ∧ ∃ f ∈ e10b.fuel_list, ∃ i : Fin 4, 0 < (e10b.inl i).fluid f := by
  refine ⟨(C10_initialise_fluids_guard e10a).1 ?_,
    (C10_initialise_fluids_guard e10b).2 ?_ e10b_some⟩
  · intro f hf i
    rfl
  · intro f hf i
    exact rfl

/-- C5 (amended): for every residual slot that the source guards (the
reaction balance rows, the energy balance row, the four characteristic
coupling rows and the zeta target rows), the assembly keeps the previous
value whenever the previous magnitude is at most err squared, the
iteration counter is not divisible by 4 and always_all_equations is off. -/
theorem C5_selective_reeval {F : ℕ} (e : Engine F) (prev : List ℚ) (k : ℕ)
    (v p : ℚ) (hent : (entries e).get? k = some (Entry.guarded v))
    (hp : prev.get? k = some p) (h1 : ¬ |p| > e.err ^ 2)
    (h2 : e.it % 4 ≠ 0) (h3 : e.always_all_equations = false) :
    (equations e prev).get? k = some p := by
  rw [equations, List.get?_zipWith', hp, hent]
  simp [applyEntry, h1, h2, h3]

/-- C5 counterexample: at ce5 the optional lambda target occupies slot 13;
its previous residual is 0 so the claimed guard does not fire (0 is not
above err squared, the iteration counter is 1 and the always flag is off),
yet the assembly overwrites the slot with the freshly computed lambda
residual 1 instead of keeping 0: the lambda target row is recomputed
unconditionally in the source. -/
theorem C5_counterexample :
    (List.replicate 14 (0 : ℚ)).get? 13 = some 0
    ∧ ¬ (|(0 : ℚ)| > ce5.err ^ 2 ∨ ce5.it % 4 = 0
          ∨ ce5.always_all_equations = true)
    ∧ (equations ce5 (List.replicate 14 (0 : ℚ))).get? 13 = some 1 := by
  refine ⟨rfl, ?_, rfl⟩
  push_neg
  refine ⟨?_, by decide, by decide⟩
  show |(0 : ℚ)| ≤ ((1 : ℚ) / 10000) ^ 2
  norm_num

/-- Witness for C5 at slot 8 (the energy balance row) of ce5: the guard
does not fire and the previous value 0 is kept. -/
theorem C5_selective_reeval_witness :
    (entries ce5).get? 8 = some (Entry.guarded (energy_balance ce5))
    ∧ (equations ce5 (List.replicate 14 (0 : ℚ))).get? 8 = some 0 := by
  refine ⟨rfl, C5_selective_reeval ce5 (List.replicate 14 (0 : ℚ)) 8
    (energy_balance ce5) 0 rfl rfl ?_ (by decide) rfl⟩
  show ¬ |(0 : ℚ)| > ((1 : ℚ) / 10000) ^ 2
  norm_num

/-- C6: bus_func returns a value exactly for the six supported bus
parameter names TI, P, Q, Q1, Q2, Qloss and fails (ValueError, modelled
as none) for every other name; bus_deriv fails under exactly the same
condition. -/
theorem C6_bus_params {F : ℕ} (e : Engine F) (param : String) :
    ((bus_func e param).isSome = true ↔
      param ∈ (["TI", "P", "Q", "Q1", "Q2", "Qloss"] : List String))
    ∧ (bus_deriv e param).isSome = (bus_func e param).isSome := by
  constructor
  · rw [bus_func]
    split_ifs with h1 h2 h3 h4 h5 h6 <;> simp_all
  · rw [bus_func, bus_deriv]
    split_ifs <;> simp_all

/-- Every write produced by atRow carries the given row index. -/
theorem atRow_fst {k : ℕ} {l : List (ℕ × ℕ × ℚ)} {w : JWrite}
    (h : w ∈ atRow k l) : w.1 = k := by
  rcases List.mem_map.mp h with ⟨a, _, rfl⟩
  rfl

/-- Membership under a conditional row block. -/
theorem mem_condW {b : Bool} {l : List JWrite} {w : JWrite}
    (h : w ∈ condW b l) : w ∈ l := by
  unfold condW at h
  split at h
  · exact h
  · exact absurd h (List.not_mem_nil w)

/-- Every Jacobian write of a derivatives call lands on a row of index at
least 2F + 5: the statically pre-filled species, mass and pressure rows
are never touched. -/
theorem derivWrites_row_lb {F : ℕ} (e : Engine F) (filt : ℕ → ℕ → Bool) :
    ∀ w ∈ derivWrites e filt, F * 2 + 5 ≤ w.1 := by
  intro w hw
  unfold derivWrites at hw
  simp only [List.mem_append, or_assoc] at hw
  rcases hw with
    hw | hw | hw | hw | hw | hw | hw | hw | hw | hw | hw | hw | hw | hw
  · rcases List.mem_flatten.mp hw with ⟨l, hl, hwl⟩
    rcases List.mem_map.mp hl with ⟨fi, _, rfl⟩
    unfold rbRow at hwl
    have := atRow_fst hwl
    omega
  · unfold energyRow at hw
    have := atRow_fst hw
    omega
  · unfold tiPRow at hw
    have := atRow_fst hw
    omega
  · unfold Q1cRow at hw
    have := atRow_fst hw
    omega
  · unfold Q2cRow at hw
    have := atRow_fst hw
    omega
  · unfold QlossRow at hw
    have := atRow_fst hw
    omega
  · unfold lambRow at hw
    have := atRow_fst (mem_condW hw)
    omega
  · unfold tiRow at hw
    have := atRow_fst (mem_condW hw)
    omega
  · unfold Q1Row at hw
    have := atRow_fst (mem_condW hw)
    omega
  · unfold Q2Row at hw
    have := atRow_fst (mem_condW hw)
    omega
  · unfold pr1Row at hw
    have := atRow_fst (mem_condW hw)
    omega
  · unfold pr2Row at hw
    have := atRow_fst (mem_condW hw)
    omega
  · unfold zeta1Row at hw
    have := atRow_fst (mem_condW hw)
    omega
  · unfold zeta2Row at hw
    have := atRow_fst (mem_condW hw)
    omega

/-- Applying a list of writes none of which touches row r leaves every
cell of row r unchanged. -/
theorem applyWrites_frame (ws : List JWrite) :
    ∀ (J : ℕ → ℕ → ℕ → ℚ) (r i j : ℕ), (∀ w ∈ ws, w.1 ≠ r) →
      applyWrites J ws r i j = J r i j := by
  induction ws with
  | nil => intro J r i j _; rfl
  | cons w ws ih =>
      intro J r i j h
      have h1 : w.1 ≠ r := h w (List.mem_cons_self w ws)
      have h2 : ∀ w2 ∈ ws, w2.1 ≠ r := fun w2 hw2 => h w2 (List.mem_cons_of_mem w hw2)
      show applyWrites (applyWrite J w) ws r i j = J r i j
      rw [ih (applyWrite J w) r i j h2]
      unfold applyWrite
      exact if_neg (fun hc => h1 hc.1.symm)

/-- C7: for every increment_filter and every state, derivatives rewrites
only rows of index at least 2F + 5; each cell of the rows 0 to 2F + 4
keeps its previous value, in particular the constant values placed by
comp_init from fluid_deriv, mass_flow_deriv and pressure_deriv. -/
theorem C7_static_rows {F : ℕ} (e : Engine F) (filt : ℕ → ℕ → Bool)
    (J : ℕ → ℕ → ℕ → ℚ) (r i j : ℕ) (hr : r < F * 2 + 5) :
    derivatives e filt J r i j = J r i j
    ∧ derivatives e filt (comp_init_jacobian F) r i j
        = comp_init_jacobian F r i j := by
  have key : ∀ (J2 : ℕ → ℕ → ℕ → ℚ), derivatives e filt J2 r i j = J2 r i j := by
    intro J2
    refine applyWrites_frame (derivWrites e filt) J2 r i j (fun w hw => ?_)
    have := derivWrites_row_lb e filt w hw
    omega
  exact ⟨key J, key (comp_init_jacobian F)⟩

/-- Witness for C7 at row 0, an everywhere-false filter and a constant
Jacobian. -/
theorem C7_static_rows_witness :
    (0 : ℕ) < 1 * 2 + 5
    ∧ derivatives eng1 (fun _ _ => false) (fun _ _ _ => (5 : ℚ)) 0 0 0 = 5 :=
  ⟨by decide,
    (C7_static_rows eng1 (fun _ _ => false) (fun _ _ _ => (5 : ℚ)) 0 0 0
      (by decide)).1⟩

/-- An Option-valued fold whose steps preserve a predicate preserves it
over the whole foldlM. -/
theorem foldlM_opt_pres {σ α : Type _} (f : σ → α → Option σ) (Q : σ → Prop) :
    ∀ (l : List α), (∀ st a, a ∈ l → Q st → ∀ s2 ∈ f st a, Q s2) →
      ∀ st, Q st → ∀ s2 ∈ l.foldlM f st, Q s2 := by
  intro l
  induction l with
  | nil =>
      intro _ st hst s2 hs2
      simp only [List.foldlM_nil, Option.mem_def, Option.pure_def,
        Option.some.injEq] at hs2
      exact hs2 ▸ hst
  | cons a as ih =>
      intro hf st hst s2 hs2
      rw [List.foldlM_cons] at hs2
      cases hfa : f st a with
      | none =>
          rw [hfa] at hs2
          simp only [Option.bind_eq_bind, Option.none_bind, Option.mem_def] at hs2
          exact Option.noConfusion hs2
      | some st1 =>
          rw [hfa] at hs2
          simp only [Option.bind_eq_bind, Option.some_bind] at hs2
          have hst1 : Q st1 :=
            hf st a (List.mem_cons_self a as) hst st1 (by rw [hfa]; rfl)
          exact ih (fun st' a' ha' => hf st' a' (List.mem_cons_of_mem a ha'))
            st1 hst1 s2 hs2

/-- Target-direction propagation never changes the composition of a
connection that is not a cooling-loop outlet of an engine nor an outlet
of one of the other (spec-modelled) components. -/
theorem prop_target_keeps {F n m : ℕ} (net : PropNet F n m) (c : Fin m)
    (hT : targetWritable net c = false) :
    ∀ (fuel : ℕ) (comp : Fin n) (conn : Fin m) (start : Fin n)
      (s : NetState F m),
      ∀ s2 ∈ propagate_to_target net fuel comp conn start s, s2 c = s c := by
  have hno : ∀ oc : Fin m, targetWritable net oc = true → oc ≠ c := by
    intro oc h hoc
    rw [hoc, hT] at h
    exact Bool.noConfusion h
  intro fuel
  induction fuel with
  | zero =>
      intro comp conn start s s2 hs2
      simp only [propagate_to_target, Option.mem_def] at hs2
      exact Option.noConfusion hs2
  | succ fl ih =>
      intro comp conn start s s2 hs2
      have hstep : ∀ (oc : Fin m), targetWritable net oc = true →
          ∀ (st : NetState F m), st c = s c →
            ∀ s3 ∈ propagate_to_target net fl (net.target oc) oc start
              (copyTo net st conn oc), s3 c = s c := by
        intro oc hocw st hst s3 hs3
        have hcopy : copyTo net st conn oc c = st c := by
          funext f
          unfold copyTo
          rw [if_neg (fun hc => (hno oc hocw) hc.1.symm)]
        have h3 := ih (net.target oc) oc start (copyTo net st conn oc) s3 hs3
        rw [h3, hcopy, hst]
      cases hk : net.kind comp with
      | engine io =>
          simp only [propagate_to_target, hk] at hs2
          refine foldlM_opt_pres _ (fun st => st c = s c) _ ?_ s rfl s2 hs2
          intro st oc hoc hst s3 hs3
          have hocw : targetWritable net oc = true := by
            refine List.any_eq_true.mpr ⟨comp, List.mem_finRange comp, ?_⟩
            rw [hk]
            simp only [List.mem_cons, List.mem_singleton] at hoc
            rcases hoc with rfl | rfl | h
            · simp
            · simp
            · exact absurd h (List.not_mem_nil oc)
          exact hstep oc hocw st hst s3 hs3
      | generic ins outs =>
          simp only [propagate_to_target, hk] at hs2
          by_cases hcs : comp = start
          · rw [if_pos hcs] at hs2
            simp only [Option.mem_def, Option.some.injEq] at hs2
            rw [← hs2]
          · rw [if_neg hcs] at hs2
            refine foldlM_opt_pres _ (fun st => st c = s c) _ ?_ s rfl s2 hs2
            intro st oc hoc hst s3 hs3
            have hocw : targetWritable net oc = true := by
              refine List.any_eq_true.mpr ⟨comp, List.mem_finRange comp, ?_⟩
              rw [hk]
              exact decide_eq_true hoc
            exact hstep oc hocw st hst s3 hs3

/-- Source-direction propagation never changes the composition of a
connection that is not a cooling-loop inlet of an engine nor an inlet of
one of the other (spec-modelled) components. -/
theorem prop_source_keeps {F n m : ℕ} (net : PropNet F n m) (c : Fin m)
    (hS : sourceWritable net c = false) :
    ∀ (fuel : ℕ) (comp : Fin n) (conn : Fin m) (start : Fin n)
      (s : NetState F m),
      ∀ s2 ∈ propagate_to_source net fuel comp conn start s, s2 c = s c := by
  have hno : ∀ ic : Fin m, sourceWritable net ic = true → ic ≠ c := by
    intro ic h hic
    rw [hic, hS] at h
    exact Bool.noConfusion h
  intro fuel
  induction fuel with
  | zero =>
      intro comp conn start s s2 hs2
      simp only [propagate_to_source, Option.mem_def] at hs2
      exact Option.noConfusion hs2
  | succ fl ih =>
      intro comp conn start s s2 hs2
      have hstep : ∀ (ic : Fin m), sourceWritable net ic = true →
          ∀ (st : NetState F m), st c = s c →
            ∀ s3 ∈ propagate_to_source net fl (net.source ic) ic start
              (copyTo net st conn ic), s3 c = s c := by
        intro ic hicw st hst s3 hs3
        have hcopy : copyTo net st conn ic c = st c := by
          funext f
          unfold copyTo
          rw [if_neg (fun hc => (hno ic hicw) hc.1.symm)]
        have h3 := ih (net.source ic) ic start (copyTo net st conn ic) s3 hs3
        rw [h3, hcopy, hst]
      cases hk : net.kind comp with
      | engine io =>
          simp only [propagate_to_source, hk] at hs2
          refine foldlM_opt_pres _ (fun st => st c = s c) _ ?_ s rfl s2 hs2
          intro st ic hic hst s3 hs3
          have hicw : sourceWritable net ic = true := by
            refine List.any_eq_true.mpr ⟨comp, List.mem_finRange comp, ?_⟩
            rw [hk]
            simp only [List.mem_cons, List.mem_singleton] at hic
            rcases hic with rfl | rfl | h
            · simp
            · simp
            · exact absurd h (List.not_mem_nil ic)
          exact hstep ic hicw st hst s3 hs3
      | generic ins outs =>
          simp only [propagate_to_source, hk] at hs2
          by_cases hcs : comp = start
          · rw [if_pos hcs] at hs2
            simp only [Option.mem_def, Option.some.injEq] at hs2
            rw [← hs2]
          · rw [if_neg hcs] at hs2
            refine foldlM_opt_pres _ (fun st => st c = s c) _ ?_ s rfl s2 hs2
            intro st ic hic hst s3 hs3
            have hicw : sourceWritable net ic = true := by
              refine List.any_eq_true.mpr ⟨comp, List.mem_finRange comp, ?_⟩
              rw [hk]
              exact decide_eq_true hic
            exact hstep ic hicw st hst s3 hs3

/-- C8 (amended): both propagation recursions of the engine run over the
cooling-loop ports only and forward the start argument unchanged without
ever consulting it; whenever a run returns, every connection that is not
a cooling-loop outlet (target direction) or cooling-loop inlet (source
direction) of some component — in particular every combustion-port
connection — still has its original composition.  Termination on cyclic
all-engine topologies fails (see the counterexample). -/
theorem C8_cooling_only_propagation {F n m : ℕ} (net : PropNet F n m)
    (c : Fin m) (hT : targetWritable net c = false)
    (hS : sourceWritable net c = false) (fuel : ℕ) (comp : Fin n)
    (conn : Fin m) (start : Fin n) (s : NetState F m) :
    (propagate_to_target net fuel comp conn start s).elim True
      (fun s2 => s2 c = s c)
    ∧ (propagate_to_source net fuel comp conn start s).elim True
      (fun s2 => s2 c = s c) := by
  constructor
  · cases h : propagate_to_target net fuel comp conn start s with
    | none => exact trivial
    | some s2 =>
        exact prop_target_keeps net c hT fuel comp conn start s s2 (by rw [h]; rfl)
  · cases h : propagate_to_source net fuel comp conn start s with
    | none => exact trivial
    | some s2 =>
        exact prop_source_keeps net c hS fuel comp conn start s s2 (by rw [h]; rfl)

/-- Witness for C8 on the two-component network wNet: connection 3 (a
combustion-side inlet) is neither a cooling outlet nor a cooling inlet,
and a terminating run (depth 2, through the port-free component) leaves
its composition unchanged in both directions. -/
theorem C8_cooling_only_propagation_witness :
    targetWritable wNet 3 = false ∧ sourceWritable wNet 3 = false
    ∧ ((propagate_to_target wNet 2 0 0 0 wS).elim True (fun s2 => s2 3 = wS 3)
        ∧ (propagate_to_source wNet 2 0 0 0 wS).elim True
          (fun s2 => s2 3 = wS 3)) :=
  ⟨by decide, by decide,
    C8_cooling_only_propagation wNet 3 (by decide) (by decide) 2 0 0 0 wS⟩

/-- On the all-engine cyclic network every recursion depth is exhausted:
no engine in the cycle ever consults the start argument, so the
propagation never returns. -/
theorem cyc_target_none :
    ∀ (fuel : ℕ) (comp : Fin 2) (conn : Fin 8) (start : Fin 2)
      (s : NetState 1 8),
      propagate_to_target cycNet fuel comp conn start s = none := by
  intro fuel
  induction fuel with
  | zero => intro comp conn start s; rfl
  | succ fl ih =>
      intro comp conn start s
      have hk : ∀ comp2 : Fin 2, ∃ io, cycNet.kind comp2 = CompKind.engine io := by
        intro comp2
        by_cases h : comp2 = 0
        · exact ⟨cycIoA, by simp [cycNet, h]⟩
        · exact ⟨cycIoB, by simp [cycNet, h]⟩
      rcases hk comp with ⟨io, hio⟩
      simp only [propagate_to_target, hio]
      rw [List.foldlM_cons, ih]
      rfl

/-- C8 counterexample: on the cyclic topology made solely of combustion
engines the target-direction propagation does not terminate: it returns
for no recursion-depth bound, refuting the claimed termination on every
(including cyclic) topology. -/
theorem C8_counterexample :
    ¬ ∃ (fuel : ℕ) (s2 : NetState 1 8),
        propagate_to_target cycNet fuel 0 0 0 wS = some s2 := by
  rintro ⟨fuel, s2, h⟩
  rw [cyc_target_none] at h
  exact Option.noConfusion h

end Tespy
